import Mathlib

/-!
Verification of the bucketed batch-construction and step-controller core of a
variational sequence-to-sequence model (`seq2seq_model.py`).

The embedding translates `Seq2SeqModel.get_batch`, `step`, `encode_to_latent`,
`decode_from_latent` and the construction-time optimizer/sampled-softmax logic
of `Seq2SeqModel.__init__` into executable Lean definitions.  Randomness
(`random.choice` in `get_batch`) is injected as an explicit list of sampled
examples; the tensor-execution engine (`session.run`) is abstracted as a
function from (fetches, feed) to outputs.
-/

namespace Seq2SeqModel

/-- Modelled from the spec: the reserved token ids PAD, GO, UNK are supplied by
the vocabulary-constants collaborator (`data_utils`, not under `src/`); the
standard values are PAD = 0, GO = 1, UNK = 3.  The claims depend only on these
being fixed and distinct. -/
def PAD_ID : Nat := 0

/-- Reserved start-of-sequence token id (see `PAD_ID`). -/
def GO_ID : Nat := 1

/-- Reserved unknown-token id, used for word-dropout substitution (see `PAD_ID`). -/
def UNK_ID : Nat := 3

/-- A raw corpus example: unpadded input and output token-id sequences
(`encoder_input, decoder_input = random.choice(data[bucket_id])`). -/
structure Example where
  enc : List Nat
  dec : List Nat
deriving DecidableEq

/-- A bucket `(max_input_len, max_output_len)`; `encoder_size, decoder_size =
self.buckets[bucket_id]`. -/
structure Bucket where
  encSize : Nat
  decSize : Nat
deriving DecidableEq

/-- Per-example encoder row of `get_batch`:
`encoder_pad = [PAD_ID] * (encoder_size - len(encoder_input))`;
`list(reversed(encoder_input + encoder_pad))`.  Python's negative-count list
multiplication yields `[]`, matched by truncated Nat subtraction. -/
def encoderRow (encoderSize : Nat) (e : Example) : List Nat :=
  (e.enc ++ List.replicate (encoderSize - e.enc.length) PAD_ID).reverse

/-- Per-example decoder row of `get_batch`:
`decoder_pad_size = decoder_size - len(decoder_input) - 1`;
`[GO_ID] + decoder_input + [PAD_ID] * decoder_pad_size`. -/
def decoderRow (decoderSize : Nat) (e : Example) : List Nat :=
  GO_ID :: (e.dec ++ List.replicate (decoderSize - e.dec.length - 1) PAD_ID)

/-- Time-major encoder batch: `batch_encoder_inputs[length_idx][batch_idx] =
encoder_inputs[batch_idx][length_idx]` for `length_idx in xrange(encoder_size)`.
The default of `getD` is unreachable: every encoder row has length at least
`encoderSize`. -/
def batchEncoderInputs (encoderSize : Nat) (chosen : List Example) : List (List Nat) :=
  (List.range encoderSize).map
    (fun t => chosen.map (fun e => (encoderRow encoderSize e).getD t PAD_ID))

/-- Time-major decoder batch: `batch_decoder_inputs[length_idx][batch_idx] =
decoder_inputs[batch_idx][length_idx]` for `length_idx in xrange(decoder_size)`. -/
def batchDecoderInputs (decoderSize : Nat) (chosen : List Example) : List (List Nat) :=
  (List.range decoderSize).map
    (fun t => chosen.map (fun e => (decoderRow decoderSize e).getD t PAD_ID))

/-- Weight of one example at one time step: the Python loop sets
`batch_weight[batch_idx] = 0.0` when `length_idx == decoder_size - 1` or the
shifted target `decoder_inputs[batch_idx][length_idx + 1]` is `PAD_ID`
(the target read is guarded by `length_idx < decoder_size - 1`, and the
disjunction short-circuits, so the read below is reached exactly when Python
performs it). -/
def batchWeight (decoderSize : Nat) (t : Nat) (e : Example) : Rat :=
  if t = decoderSize - 1 then 0
  else if (decoderRow decoderSize e).getD (t + 1) PAD_ID = PAD_ID then 0
  else 1

/-- Time-major target-weight batch, `batch_weights` of `get_batch`. -/
def batchWeights (decoderSize : Nat) (chosen : List Example) : List (List Rat) :=
  (List.range decoderSize).map (fun t => chosen.map (batchWeight decoderSize t))

/-- `Seq2SeqModel.get_batch(data, bucket_id)` with the `batch_size` draws of
`random.choice(data[bucket_id])` injected as the list `chosen`.  Returns the
triple `(batch_encoder_inputs, batch_decoder_inputs, batch_weights)`. -/
def get_batch (buckets : List Bucket) (bucketId : Nat) (chosen : List Example) :
    List (List Nat) × List (List Nat) × List (List Rat) :=
  let bk := buckets.getD bucketId ⟨0, 0⟩
  (batchEncoderInputs bk.encSize chosen,
   batchDecoderInputs bk.decSize chosen,
   batchWeights bk.decSize chosen)

/-- The encoder column the SPEC describes for claim C2 (left-pad with PAD, then
reverse the padded sequence); written from the spec's words, for comparison
with the column `get_batch` actually builds. -/
def specEncoderColumn (encoderSize : Nat) (e : Example) : List Nat :=
  (List.replicate (encoderSize - e.enc.length) PAD_ID ++ e.enc).reverse

/-- The construction-time configuration of the model that the step-controller
entry points consult (`self.buckets`, `self.batch_size`, `self.latent_dim`,
`self.probabilistic`, `self.word_dropout_keep_prob`). -/
structure ModelCfg where
  buckets : List Bucket
  batchSize : Nat
  latentDim : Nat
  probabilistic : Bool
  wordDropoutKeepProb : Rat
deriving DecidableEq

/-- A named input slot of the feed dictionary: the placeholders
`encoder{l}`, `decoder{l}`, `weight{l}`, `replace_input`, and the per-bucket
latent tensors `self.means[b]`, `self.logvars[b]` used as feed keys. -/
inductive Slot where
  | encoderSlot (l : Nat)
  | decoderSlot (l : Nat)
  | weightSlot (l : Nat)
  | replaceSlot
  | meanSlot (b : Nat)
  | logvarSlot (b : Nat)
deriving DecidableEq

/-- A concrete value placed in the feed dictionary.  `zerosInt1 n` is
`np.zeros([n], dtype=np.int32)`; `zerosInt2 r c` is
`np.zeros([r, c], dtype=np.int32)` (the integer-typed zero logvar feed of the
source); `fullUnk n` is `np.full((n), UNK_ID, dtype=np.int32)`. -/
inductive FeedVal where
  | intVec (v : List Int)
  | ratVec (v : List Rat)
  | ratMat (v : List (List Rat))
  | zerosInt1 (n : Nat)
  | zerosInt2 (rows cols : Nat)
  | fullUnk (n : Nat)
deriving DecidableEq

/-- An error raised by a step-controller entry point before any graph
evaluation: the three `ValueError`s of `step`/`encode_to_latent` carry the
actual and expected lengths they name in their messages; `indexError` is a
plain Python `IndexError` from an out-of-range list read (no lengths named). -/
inductive ModelError where
  | encoderLengthMismatch (actual expected : Nat)
  | decoderLengthMismatch (actual expected : Nat)
  | weightsLengthMismatch (actual expected : Nat)
  | indexError
deriving DecidableEq

/-- A graph expression requested from `session.run`: `self.updates[b]`,
`self.gradient_norms[b]`, `self.losses[b]`, `self.KL_divergences[b]`,
`self.outputs[b][l]`, `self.means[b]`, `self.logvars[b]`. -/
inductive Fetch where
  | updateOp (b : Nat)
  | gradientNorm (b : Nat)
  | lossFetch (b : Nat)
  | klFetch (b : Nat)
  | outputFetch (b : Nat) (l : Nat)
  | meanFetch (b : Nat)
  | logvarFetch (b : Nat)
deriving DecidableEq

/-- Python list indexing `xs[i]`: value when in range, `IndexError` otherwise. -/
def pyGet (xs : List α) (i : Nat) : Except ModelError α :=
  match xs[i]? with
  | some x => Except.ok x
  | none => Except.error ModelError.indexError

/-- `Seq2SeqModel.step(session, encoder_inputs, decoder_inputs, target_weights,
bucket_id, forward_only)` up to (but not including) `session.run`: the three
shape checks in source order, then the feed dictionary and the output fetches,
returned instead of evaluated.  An error return means the `ValueError` was
raised before any feed was built or any evaluation attempted, hence with no
state change. -/
def step (cfg : ModelCfg) (encoderInputs : List (List Int))
    (decoderInputs : List (List Int)) (targetWeights : List (List Rat))
    (bucketId : Nat) (forwardOnly : Bool) :
    Except ModelError (List (Slot × FeedVal) × List Fetch) :=
  let bk := cfg.buckets.getD bucketId ⟨0, 0⟩
  if encoderInputs.length ≠ bk.encSize then
    Except.error (ModelError.encoderLengthMismatch encoderInputs.length bk.encSize)
  else if decoderInputs.length ≠ bk.decSize then
    Except.error (ModelError.decoderLengthMismatch decoderInputs.length bk.decSize)
  else if targetWeights.length ≠ bk.decSize then
    Except.error (ModelError.weightsLengthMismatch targetWeights.length bk.decSize)
  else
    let feedEnc := (List.range bk.encSize).map
      (fun l => (Slot.encoderSlot l, FeedVal.intVec (encoderInputs.getD l [])))
    let feedDec := (List.range bk.decSize).map
      (fun l => [(Slot.decoderSlot l, FeedVal.intVec (decoderInputs.getD l [])),
                 (Slot.weightSlot l, FeedVal.ratVec (targetWeights.getD l []))])
    let feed0 := feedEnc ++ feedDec.flatten
    let feed1 :=
      if cfg.wordDropoutKeepProb < 1 then
        feed0 ++ [(Slot.replaceSlot, FeedVal.fullUnk cfg.batchSize)]
      else feed0
    let feed2 := feed1 ++ [(Slot.decoderSlot bk.decSize, FeedVal.zerosInt1 cfg.batchSize)]
    let feed3 :=
      if cfg.probabilistic = false then
        feed2 ++ [(Slot.logvarSlot bucketId, FeedVal.zerosInt2 cfg.batchSize cfg.latentDim)]
      else feed2
    let fetches :=
      if forwardOnly = false then
        [Fetch.updateOp bucketId, Fetch.gradientNorm bucketId,
         Fetch.lossFetch bucketId, Fetch.klFetch bucketId]
      else
        [Fetch.lossFetch bucketId, Fetch.klFetch bucketId] ++
          (List.range bk.decSize).map (Fetch.outputFetch bucketId)
    Except.ok (feed3, fetches)

/-- `Seq2SeqModel.encode_to_latent(session, encoder_inputs, bucket_id)` up to
`session.run`: the single shape check on `encoder_inputs`, then the feed and
the fetch list `[self.means, self.logvars]` — note the source fetches the full
per-bucket lists, for every bucket, not just `bucket_id`. -/
def encode_to_latent (cfg : ModelCfg) (encoderInputs : List (List Int))
    (bucketId : Nat) :
    Except ModelError (List (Slot × FeedVal) × List Fetch) :=
  let bk := cfg.buckets.getD bucketId ⟨0, 0⟩
  if encoderInputs.length ≠ bk.encSize then
    Except.error (ModelError.encoderLengthMismatch encoderInputs.length bk.encSize)
  else
    let feed := (List.range bk.encSize).map
      (fun l => (Slot.encoderSlot l, FeedVal.intVec (encoderInputs.getD l [])))
    let fetches := (List.range cfg.buckets.length).map Fetch.meanFetch ++
      (List.range cfg.buckets.length).map Fetch.logvarFetch
    Except.ok (feed, fetches)

/-- One iteration of the `for l in xrange(decoder_size)` feed-building loop of
`decode_from_latent`: reads `decoder_inputs[l]` and `target_weights[l]` with
Python indexing and appends the two feed entries. -/
def decodeFeedStep (decoderInputs : List (List Int))
    (targetWeights : List (List Rat)) (acc : List (Slot × FeedVal)) (l : Nat) :
    Except ModelError (List (Slot × FeedVal)) := do
  let d ← pyGet decoderInputs l
  let w ← pyGet targetWeights l
  pure (acc ++ [(Slot.decoderSlot l, FeedVal.intVec d),
                (Slot.weightSlot l, FeedVal.ratVec w)])

/-- `Seq2SeqModel.decode_from_latent(session, means, logvars, bucket_id,
decoder_inputs, target_weights)` up to `session.run`.  The source performs no
shape validation: the loop `for l in xrange(decoder_size)` indexes
`decoder_inputs[l]` and `target_weights[l]` directly (`decodeFeedStep`), so a
too-short list raises a bare `IndexError` (modelled by `pyGet`) and surplus
entries are never read.  The logvar feed is zero-filled whenever
`probabilistic` is false. -/
def decode_from_latent (cfg : ModelCfg) (means : List (List Rat))
    (logvars : List (List Rat)) (bucketId : Nat)
    (decoderInputs : List (List Int)) (targetWeights : List (List Rat)) :
    Except ModelError (List (Slot × FeedVal) × List Fetch) := do
  let decoderSize := (cfg.buckets.getD bucketId ⟨0, 0⟩).decSize
  let logvarFeed :=
    if cfg.probabilistic = false then FeedVal.zerosInt2 cfg.batchSize cfg.latentDim
    else FeedVal.ratMat logvars
  let feed0 : List (Slot × FeedVal) :=
    [(Slot.meanSlot bucketId, FeedVal.ratMat means),
     (Slot.logvarSlot bucketId, logvarFeed)]
  let feed1 ← (List.range decoderSize).foldlM
    (decodeFeedStep decoderInputs targetWeights) feed0
  let feed2 :=
    if cfg.wordDropoutKeepProb < 1 then
      feed1 ++ [(Slot.replaceSlot, FeedVal.fullUnk cfg.batchSize)]
    else feed1
  let feed3 := feed2 ++ [(Slot.decoderSlot decoderSize, FeedVal.zerosInt1 cfg.batchSize)]
  let fetches := (List.range decoderSize).map (Fetch.outputFetch bucketId)
  pure (feed3, fetches)

/-- Modelled from the spec: the tensor-execution engine (`session.run`, from
the external execution collaborator, not under `src/`) is a synchronous
`evaluate(outputs, feeds)` contract — a function of the requested fetches and
the feed; per the spec, the non-probabilistic path applies no sampling noise,
so evaluation is deterministic.  `decodeOutputs` is the value
`decode_from_latent` returns to its caller under an engine `run`. -/
def decodeOutputs (run : List Fetch → List (Slot × FeedVal) → List (List Rat))
    (cfg : ModelCfg) (means logvars : List (List Rat)) (bucketId : Nat)
    (decoderInputs : List (List Int)) (targetWeights : List (List Rat)) :
    Except ModelError (List (List Rat)) :=
  (decode_from_latent cfg means logvars bucketId decoderInputs targetWeights).map
    (fun p => run p.2 p.1)

/-- A symbolic graph expression over the per-bucket loss scalars: the
reconstruction loss `self.losses[b]`, the divergence `self.KL_divergences[b]`,
the annealing-rate variable `self.kl_rate`, and sums/products of these. -/
inductive LExpr where
  | reconLoss (b : Nat)
  | klDiv (b : Nat)
  | klRate
  | add (x y : LExpr)
  | mul (x y : LExpr)
deriving DecidableEq

/-- The training expressions built for one bucket: the total loss whose
gradients are computed, and the maximum global norm the gradients are clipped
to before `optimizer.apply_gradients`. -/
structure BucketTrainOps where
  totalLoss : LExpr
  clipNorm : Rat
deriving DecidableEq

/-- The gradient/clip/update construction loop of `Seq2SeqModel.__init__`
(lines guarded by `if not forward_only:`): one `BucketTrainOps` appended per
bucket, with the total loss selected by the `probabilistic`/`annealing` case
split of the source; nothing is built in forward-only mode. -/
def buildTrainingOps (probabilistic annealing forwardOnly : Bool)
    (maxGradientNorm : Rat) (numBuckets : Nat) : List BucketTrainOps :=
  if forwardOnly then []
  else
    (List.range numBuckets).foldl
      (fun acc b =>
        let totalLoss :=
          if probabilistic then
            if annealing then
              LExpr.add (LExpr.reconLoss b) (LExpr.mul LExpr.klRate (LExpr.klDiv b))
            else
              LExpr.add (LExpr.reconLoss b) (LExpr.klDiv b)
          else LExpr.reconLoss b
        acc ++ [⟨totalLoss, maxGradientNorm⟩])
      []

/-- The sampled-softmax output-projection variables `(proj_w, proj_b)`,
recorded with the shapes they are created with. -/
inductive ProjVars where
  | projPair (vocabSize hiddenSize : Nat)
deriving DecidableEq

/-- The `sampled_loss` closure, recorded with its captured sample count and
vocabulary size.  When absent (`None`), downstream loss construction falls
back to the full-vocabulary softmax. -/
inductive LossFn where
  | sampledLoss (numSamples : Int) (vocabSize : Nat)
deriving DecidableEq

/-- The sampled-softmax guard of `Seq2SeqModel.__init__`:
`output_projection = None; softmax_loss_function = None;
if num_samples > 0 and num_samples < self.target_vocab_size: ...` — the
projection pair and the sampled loss are created only under the guard, and no
error is raised in either case. -/
def buildSampledSoftmax (numSamples : Int) (targetVocabSize : Nat)
    (hiddenSize : Nat) : Option ProjVars × Option LossFn :=
  if 0 < numSamples ∧ numSamples < (targetVocabSize : Int) then
    (some (ProjVars.projPair targetVocabSize hiddenSize),
     some (LossFn.sampledLoss numSamples targetVocabSize))
  else (none, none)

/-- A concrete one-bucket non-probabilistic model configuration used as a test
vehicle: one bucket `(1, 2)`, batch size 1, latent dimension 1, word-dropout
keep probability 1. -/
def cfgOne : ModelCfg := ⟨[⟨1, 2⟩], 1, 1, false, 1⟩

/-- A concrete two-bucket non-probabilistic model configuration used as a test
vehicle: buckets `(1, 2)` and `(3, 4)`. -/
def cfgTwo : ModelCfg := ⟨[⟨1, 2⟩, ⟨3, 4⟩], 1, 1, false, 1⟩

/-- The fetch list a successful step-controller call submits to `session.run`
(empty on error, where nothing is evaluated). -/
def fetchesOf (r : Except ModelError (List (Slot × FeedVal) × List Fetch)) :
    List Fetch :=
  match r with
  | Except.ok p => p.2
  | Except.error _ => []

theorem get_batch_eq (buckets : List Bucket) (bucketId : Nat) (chosen : List Example) :
    get_batch buckets bucketId chosen =
      (batchEncoderInputs (buckets.getD bucketId ⟨0, 0⟩).encSize chosen,
       batchDecoderInputs (buckets.getD bucketId ⟨0, 0⟩).decSize chosen,
       batchWeights (buckets.getD bucketId ⟨0, 0⟩).decSize chosen) := rfl

theorem getD_range_map (f : Nat → α) (d : α) {n t : Nat} (ht : t < n) :
    ((List.range n).map f).getD t d = f t := by
  simp [List.getElem?_range ht]

theorem getD_map_of_lt (f : α → β) (d : β) {l : List α} {b : Nat} (hb : b < l.length) :
    (l.map f).getD b d = f l[b] := by
  simp [List.getElem?_eq_getElem hb]

theorem encoderRow_eq (encoderSize : Nat) (e : Example) :
    encoderRow encoderSize e =
      List.replicate (encoderSize - e.enc.length) PAD_ID ++ e.enc.reverse := by
  simp [encoderRow]

theorem batchWeight_eq (decoderSize t : Nat) (e : Example) :
    batchWeight decoderSize t e =
      if t = decoderSize - 1 ∨ (decoderRow decoderSize e).getD (t + 1) PAD_ID = PAD_ID
      then 0 else 1 := by
  unfold batchWeight
  by_cases h1 : t = decoderSize - 1 <;>
    by_cases h2 : (decoderRow decoderSize e).getD (t + 1) PAD_ID = PAD_ID <;>
      simp [h1, h2]

/-- C1: for every batch returned by `get_batch` for a bucket with output bound
`O`, and every time index `t < O` and example index `b`, `target_weights[t][b]`
is `0` exactly when `t = O - 1` or the decoder input at position `t + 1` for
example `b` is the PAD symbol, and is `1` otherwise.  (The batch read at
position `t + 1` uses a non-PAD default, which is only reached when
`t + 1 = O`, where the first disjunct already holds.) -/
theorem get_batch_target_weights (buckets : List Bucket) (bucketId : Nat)
    (chosen : List Example) (t b : Nat)
    (ht : t < (buckets.getD bucketId ⟨0, 0⟩).decSize) (hb : b < chosen.length) :
    (((get_batch buckets bucketId chosen).2.2).getD t []).getD b 1 =
      if t = (buckets.getD bucketId ⟨0, 0⟩).decSize - 1 ∨
          (((get_batch buckets bucketId chosen).2.1).getD (t + 1) []).getD b (PAD_ID + 1) = PAD_ID
      then 0 else 1 := by
  rw [get_batch_eq]
  unfold batchWeights batchDecoderInputs
  rw [getD_range_map _ _ ht, getD_map_of_lt _ _ hb, batchWeight_eq]
  by_cases h2 : t + 1 < (buckets.getD bucketId ⟨0, 0⟩).decSize
  · rw [getD_range_map _ _ h2, getD_map_of_lt _ _ hb]
  · have htO : t = (buckets.getD bucketId ⟨0, 0⟩).decSize - 1 := by omega
    have hnone :
        ((List.range (buckets.getD bucketId ⟨0, 0⟩).decSize).map
          (fun i => chosen.map
            (fun e => (decoderRow (buckets.getD bucketId ⟨0, 0⟩).decSize e).getD i PAD_ID))).getD
          (t + 1) [] = [] := by
      rw [List.getD_eq_getElem?_getD,
        List.getElem?_eq_none (by simp only [List.length_map, List.length_range]; omega)]
      rfl
    rw [hnone]
    simp [htO, PAD_ID]

/-- C1 witness: bucket `(1, 2)`, one example with output `[7]`, `t = 0`,
`b = 0`: the weight is `1` because the shifted target `7` is not PAD. -/
theorem get_batch_target_weights_witness :
    0 < (([⟨1, 2⟩] : List Bucket).getD 0 ⟨0, 0⟩).decSize ∧
    0 < ([(⟨[5], [7]⟩ : Example)]).length ∧
    (((get_batch [⟨1, 2⟩] 0 [⟨[5], [7]⟩]).2.2).getD 0 []).getD 0 1 =
      if (0 : Nat) = (([⟨1, 2⟩] : List Bucket).getD 0 ⟨0, 0⟩).decSize - 1 ∨
          (((get_batch [⟨1, 2⟩] 0 [⟨[5], [7]⟩]).2.1).getD (0 + 1) []).getD 0 (PAD_ID + 1) = PAD_ID
      then 0 else 1 :=
  ⟨by decide, by decide,
   get_batch_target_weights [⟨1, 2⟩] 0 [⟨[5], [7]⟩] 0 0 (by decide) (by decide)⟩

/-- C2 counterexample: for the input `[1, 2]` in a bucket with input bound 3,
the encoder column `get_batch` builds is `[PAD, 2, 1]` — the reversal of the
RIGHT-padded input — whereas the claim's reversal of the left-padded input
would be `[2, 1, PAD]`. -/
theorem get_batch_encoder_column_cex :
    (List.range 3).map
        (fun t => (((get_batch [⟨3, 2⟩] 0 [⟨[1, 2], [6]⟩]).1).getD t []).getD 0 PAD_ID) ≠
      specEncoderColumn 3 ⟨[1, 2], [6]⟩ := by decide

/-- C2 amended: for every example sampled into a bucket with input bound `I`
(input not longer than `I`), the encoder input column of the built batch equals
the reversal of the input RIGHT-padded to length `I`: the PAD symbols, appended
after the input tokens before reversal, appear first, followed by the input
tokens in reverse order. -/
theorem get_batch_encoder_column (buckets : List Bucket) (bucketId : Nat)
    (chosen : List Example) (b : Nat) (hb : b < chosen.length)
    (hlen : chosen[b].enc.length ≤ (buckets.getD bucketId ⟨0, 0⟩).encSize) :
    (List.range (buckets.getD bucketId ⟨0, 0⟩).encSize).map
        (fun t => (((get_batch buckets bucketId chosen).1).getD t []).getD b PAD_ID) =
      List.replicate
          ((buckets.getD bucketId ⟨0, 0⟩).encSize - chosen[b].enc.length) PAD_ID
        ++ chosen[b].enc.reverse := by
  rw [get_batch_eq]
  apply List.ext_getElem
  · simp only [List.length_map, List.length_range, List.length_append,
      List.length_replicate, List.length_reverse]
    omega
  · intro n h1 h2
    have hn : n < (buckets.getD bucketId ⟨0, 0⟩).encSize := by
      simpa using h1
    simp only [List.getElem_map, List.getElem_range]
    unfold batchEncoderInputs
    rw [getD_range_map _ _ hn, getD_map_of_lt _ _ hb, encoderRow_eq,
      List.getD_eq_getElem?_getD, List.getElem?_eq_getElem (by simpa using h2)]
    rfl

/-- C2 amended witness: input `[1, 2]`, bucket input bound 3: the column is
`[PAD, 2, 1]`. -/
theorem get_batch_encoder_column_witness :
    0 < ([(⟨[1, 2], [6]⟩ : Example)]).length ∧
    ([(⟨[1, 2], [6]⟩ : Example)])[0].enc.length ≤
      (([⟨3, 2⟩] : List Bucket).getD 0 ⟨0, 0⟩).encSize ∧
    (List.range (([⟨3, 2⟩] : List Bucket).getD 0 ⟨0, 0⟩).encSize).map
        (fun t => (((get_batch [⟨3, 2⟩] 0 [⟨[1, 2], [6]⟩]).1).getD t []).getD 0 PAD_ID) =
      List.replicate
          ((([⟨3, 2⟩] : List Bucket).getD 0 ⟨0, 0⟩).encSize -
            ([(⟨[1, 2], [6]⟩ : Example)])[0].enc.length) PAD_ID
        ++ ([(⟨[1, 2], [6]⟩ : Example)])[0].enc.reverse :=
  ⟨by decide, by decide,
   get_batch_encoder_column [⟨3, 2⟩] 0 [⟨[1, 2], [6]⟩] 0 (by decide) (by decide)⟩

/-- C7 counterexample: for bucket `(1, 2)` the decoder batch built by
`get_batch` has time-length `2 = O`, not `O + 1 = 3` as the claim states. -/
theorem get_batch_decoder_length_cex :
    ((get_batch [⟨1, 2⟩] 0 [⟨[5], [7]⟩]).2.1).length = 2 ∧
    ((get_batch [⟨1, 2⟩] 0 [⟨[5], [7]⟩]).2.1).length ≠ 2 + 1 := by decide

/-- C7 amended: for every batch returned by `get_batch` for a bucket `(I, O)`,
the decoder_inputs structure is start-symbol-prefixed and pad-filled with
time-length exactly `O` (the extra all-PAD target slot is appended later inside
`step`, not by `get_batch`), and `decoder_inputs[0][b] = GO` for every example
`b`. -/
theorem get_batch_decoder_go (buckets : List Bucket) (bucketId : Nat)
    (chosen : List Example) (b : Nat) (hb : b < chosen.length)
    (hO : 0 < (buckets.getD bucketId ⟨0, 0⟩).decSize) :
    ((get_batch buckets bucketId chosen).2.1).length =
        (buckets.getD bucketId ⟨0, 0⟩).decSize ∧
    (((get_batch buckets bucketId chosen).2.1).getD 0 []).getD b PAD_ID = GO_ID := by
  rw [get_batch_eq]
  refine ⟨by simp [batchDecoderInputs], ?_⟩
  unfold batchDecoderInputs
  rw [getD_range_map _ _ hO, getD_map_of_lt _ _ hb]
  rfl

/-- C7 amended witness: bucket `(1, 2)`, one example: decoder batch has
time-length 2 and its first slot is `GO`. -/
theorem get_batch_decoder_go_witness :
    0 < ([(⟨[5], [7]⟩ : Example)]).length ∧
    0 < (([⟨1, 2⟩] : List Bucket).getD 0 ⟨0, 0⟩).decSize ∧
    (((get_batch [⟨1, 2⟩] 0 [⟨[5], [7]⟩]).2.1).length =
        (([⟨1, 2⟩] : List Bucket).getD 0 ⟨0, 0⟩).decSize ∧
      (((get_batch [⟨1, 2⟩] 0 [⟨[5], [7]⟩]).2.1).getD 0 []).getD 0 PAD_ID = GO_ID) :=
  ⟨by decide, by decide,
   get_batch_decoder_go [⟨1, 2⟩] 0 [⟨[5], [7]⟩] 0 (by decide) (by decide)⟩

/-- C10: for every data pool and bucket `(I, O)`, `get_batch` returns
encoder_inputs of time-length exactly `I` and decoder_inputs and target_weights
of time-length exactly `O`, with every time slot of width `batch_size`, even
when a sampled example exceeds the bucket bounds: the truncated-subtraction pad
counts model Python's empty negative-count pads, every per-example row still
has length at least `I` (resp. `O`), so the transposition reads only in-range
positions and the construction is total — no error is raised. -/
theorem get_batch_shapes (buckets : List Bucket) (bucketId : Nat)
    (chosen : List Example) :
    ((get_batch buckets bucketId chosen).1).length =
        (buckets.getD bucketId ⟨0, 0⟩).encSize ∧
    ((get_batch buckets bucketId chosen).2.1).length =
        (buckets.getD bucketId ⟨0, 0⟩).decSize ∧
    ((get_batch buckets bucketId chosen).2.2).length =
        (buckets.getD bucketId ⟨0, 0⟩).decSize ∧
    (∀ row ∈ (get_batch buckets bucketId chosen).1, row.length = chosen.length) ∧
    (∀ row ∈ (get_batch buckets bucketId chosen).2.1, row.length = chosen.length) ∧
    (∀ row ∈ (get_batch buckets bucketId chosen).2.2, row.length = chosen.length) ∧
    (∀ e ∈ chosen,
      (buckets.getD bucketId ⟨0, 0⟩).encSize ≤
          (encoderRow (buckets.getD bucketId ⟨0, 0⟩).encSize e).length ∧
        (buckets.getD bucketId ⟨0, 0⟩).decSize ≤
          (decoderRow (buckets.getD bucketId ⟨0, 0⟩).decSize e).length) := by
  rw [get_batch_eq]
  refine ⟨by simp [batchEncoderInputs], by simp [batchDecoderInputs],
    by simp [batchWeights], ?_, ?_, ?_, ?_⟩
  · intro row hrow
    unfold batchEncoderInputs at hrow
    simp only [List.mem_map, List.mem_range] at hrow
    obtain ⟨t, _, rfl⟩ := hrow
    simp
  · intro row hrow
    unfold batchDecoderInputs at hrow
    simp only [List.mem_map, List.mem_range] at hrow
    obtain ⟨t, _, rfl⟩ := hrow
    simp
  · intro row hrow
    unfold batchWeights at hrow
    simp only [List.mem_map, List.mem_range] at hrow
    obtain ⟨t, _, rfl⟩ := hrow
    simp
  · intro e _
    constructor
    · simp only [encoderRow, List.length_reverse, List.length_append,
        List.length_replicate]
      omega
    · simp only [decoderRow, List.length_cons, List.length_append,
        List.length_replicate]
      omega

/-- C10 witness: bucket `(2, 2)` with an overlong example (input length 4 > 2,
output length 3 > 1): shapes are still exactly 2/2/2. -/
theorem get_batch_shapes_witness :
    ((get_batch [⟨2, 2⟩] 0 [⟨[1, 2, 3, 4], [5, 6, 7]⟩]).1).length =
        (([⟨2, 2⟩] : List Bucket).getD 0 ⟨0, 0⟩).encSize ∧
    ((get_batch [⟨2, 2⟩] 0 [⟨[1, 2, 3, 4], [5, 6, 7]⟩]).2.1).length =
        (([⟨2, 2⟩] : List Bucket).getD 0 ⟨0, 0⟩).decSize ∧
    ((get_batch [⟨2, 2⟩] 0 [⟨[1, 2, 3, 4], [5, 6, 7]⟩]).2.2).length =
        (([⟨2, 2⟩] : List Bucket).getD 0 ⟨0, 0⟩).decSize :=
  ⟨(get_batch_shapes [⟨2, 2⟩] 0 [⟨[1, 2, 3, 4], [5, 6, 7]⟩]).1,
   (get_batch_shapes [⟨2, 2⟩] 0 [⟨[1, 2, 3, 4], [5, 6, 7]⟩]).2.1,
   (get_batch_shapes [⟨2, 2⟩] 0 [⟨[1, 2, 3, 4], [5, 6, 7]⟩]).2.2.1⟩

/-- C5: `step` raises a shape-mismatch error, naming the actual and expected
lengths, exactly when `len(encoder_inputs)` differs from the bucket's input
length or `len(decoder_inputs)` or `len(target_weights)` differs from the
bucket's output length — the error is returned before any feed is built or
evaluation attempted, hence with no state change — and with matching lengths
no such error is raised. -/
theorem step_shape_check (cfg : ModelCfg) (enc dec : List (List Int))
    (w : List (List Rat)) (bucketId : Nat) (forwardOnly : Bool) :
    (enc.length ≠ (cfg.buckets.getD bucketId ⟨0, 0⟩).encSize →
      step cfg enc dec w bucketId forwardOnly =
        Except.error (ModelError.encoderLengthMismatch enc.length
          (cfg.buckets.getD bucketId ⟨0, 0⟩).encSize)) ∧
    (enc.length = (cfg.buckets.getD bucketId ⟨0, 0⟩).encSize →
      dec.length ≠ (cfg.buckets.getD bucketId ⟨0, 0⟩).decSize →
      step cfg enc dec w bucketId forwardOnly =
        Except.error (ModelError.decoderLengthMismatch dec.length
          (cfg.buckets.getD bucketId ⟨0, 0⟩).decSize)) ∧
    (enc.length = (cfg.buckets.getD bucketId ⟨0, 0⟩).encSize →
      dec.length = (cfg.buckets.getD bucketId ⟨0, 0⟩).decSize →
      w.length ≠ (cfg.buckets.getD bucketId ⟨0, 0⟩).decSize →
      step cfg enc dec w bucketId forwardOnly =
        Except.error (ModelError.weightsLengthMismatch w.length
          (cfg.buckets.getD bucketId ⟨0, 0⟩).decSize)) ∧
    (enc.length = (cfg.buckets.getD bucketId ⟨0, 0⟩).encSize →
      dec.length = (cfg.buckets.getD bucketId ⟨0, 0⟩).decSize →
      w.length = (cfg.buckets.getD bucketId ⟨0, 0⟩).decSize →
      (step cfg enc dec w bucketId forwardOnly).isOk = true) := by
  refine ⟨?_, ?_, ?_, ?_⟩
  · intro h1
    simp only [List.getD_eq_getElem?_getD] at h1
    simp [step, h1]
  · intro h1 h2
    simp only [List.getD_eq_getElem?_getD] at h1 h2
    simp [step, h1, h2]
  · intro h1 h2 h3
    simp only [List.getD_eq_getElem?_getD] at h1 h2 h3
    simp [step, h1, h2, h3]
  · intro h1 h2 h3
    simp only [List.getD_eq_getElem?_getD] at h1 h2 h3
    simp [step, h1, h2, h3, Except.isOk, Except.toBool]

/-- C5 witness: bucket expects encoder length 1, given 0 — the named error;
and with lengths (1, 2, 2) no error. -/
theorem step_shape_check_witness :
    (([] : List (List Int)).length ≠ (cfgOne.buckets.getD 0 ⟨0, 0⟩).encSize ∧
      step cfgOne [] [[1], [2]] [[1], [0]] 0 true =
        Except.error (ModelError.encoderLengthMismatch 0
          (cfgOne.buckets.getD 0 ⟨0, 0⟩).encSize)) ∧
    (step cfgOne [[7]] [[1], [2]] [[1], [0]] 0 true).isOk = true :=
  ⟨⟨by decide,
    (step_shape_check cfgOne [] [[1], [2]] [[1], [0]] 0 true).1 (by decide)⟩,
   (step_shape_check cfgOne [[7]] [[1], [2]] [[1], [0]] 0 true).2.2.2
     (by decide) (by decide) (by decide)⟩

/-- C3 counterexample: with two buckets, `encode_to_latent` for bucket 0
succeeds but its fetch list contains bucket 1's mean and logvar expressions —
the source runs `session.run([self.means, self.logvars], ...)`, the full
per-bucket lists, so it does NOT evaluate and return only the specified
bucket's (mean, logvar) pair. -/
theorem encode_to_latent_cex :
    (encode_to_latent cfgTwo [[5]] 0).isOk = true ∧
    Fetch.meanFetch 1 ∈ fetchesOf (encode_to_latent cfgTwo [[5]] 0) ∧
    Fetch.logvarFetch 1 ∈ fetchesOf (encode_to_latent cfgTwo [[5]] 0) := by
  decide

/-- C3 amended: `encode_to_latent` raises a shape-mismatch error (naming the
actual and expected lengths) exactly when `len(encoder_inputs)` differs from
the bucket's declared input length — it shape-checks `encoder_inputs` only —
and on success evaluates and returns the Latent Bridge (mean, logvar)
expressions of ALL buckets (the full `self.means` and `self.logvars` lists),
as a pure read: the fetch list contains no update operation, so no state is
changed. -/
theorem encode_to_latent_spec (cfg : ModelCfg) (enc : List (List Int))
    (bid : Nat) :
    (enc.length ≠ (cfg.buckets.getD bid ⟨0, 0⟩).encSize →
      encode_to_latent cfg enc bid =
        Except.error (ModelError.encoderLengthMismatch enc.length
          (cfg.buckets.getD bid ⟨0, 0⟩).encSize)) ∧
    (enc.length = (cfg.buckets.getD bid ⟨0, 0⟩).encSize →
      encode_to_latent cfg enc bid =
        Except.ok
          ((List.range (cfg.buckets.getD bid ⟨0, 0⟩).encSize).map
            (fun l => (Slot.encoderSlot l, FeedVal.intVec (enc.getD l []))),
           (List.range cfg.buckets.length).map Fetch.meanFetch ++
             (List.range cfg.buckets.length).map Fetch.logvarFetch)) ∧
    (∀ b : Nat, Fetch.updateOp b ∉ fetchesOf (encode_to_latent cfg enc bid)) := by
  refine ⟨?_, ?_, ?_⟩
  · intro h1
    simp only [List.getD_eq_getElem?_getD] at h1
    simp [encode_to_latent, h1]
  · intro h1
    simp only [List.getD_eq_getElem?_getD] at h1
    simp [encode_to_latent, h1]
  · intro b
    by_cases h1 : enc.length = (cfg.buckets.getD bid ⟨0, 0⟩).encSize
    · simp only [List.getD_eq_getElem?_getD] at h1
      simp [encode_to_latent, h1, fetchesOf]
    · simp only [List.getD_eq_getElem?_getD] at h1
      simp [encode_to_latent, h1, fetchesOf]

/-- C3 amended witness: two buckets, correct encoder length for bucket 0 — the
call succeeds and fetches both buckets' means and logvars; a wrong length (0)
produces the named mismatch error. -/
theorem encode_to_latent_spec_witness :
    (([] : List (List Int)).length ≠ (cfgTwo.buckets.getD 0 ⟨0, 0⟩).encSize ∧
      encode_to_latent cfgTwo [] 0 =
        Except.error (ModelError.encoderLengthMismatch 0
          (cfgTwo.buckets.getD 0 ⟨0, 0⟩).encSize)) ∧
    ([[(5 : Int)]].length = (cfgTwo.buckets.getD 0 ⟨0, 0⟩).encSize ∧
      encode_to_latent cfgTwo [[5]] 0 =
        Except.ok
          ((List.range (cfgTwo.buckets.getD 0 ⟨0, 0⟩).encSize).map
            (fun l => (Slot.encoderSlot l, FeedVal.intVec ([[(5 : Int)]].getD l []))),
           (List.range cfgTwo.buckets.length).map Fetch.meanFetch ++
             (List.range cfgTwo.buckets.length).map Fetch.logvarFetch)) :=
  ⟨⟨by decide, (encode_to_latent_spec cfgTwo [] 0).1 (by decide)⟩,
   ⟨by decide, (encode_to_latent_spec cfgTwo [[5]] 0).2.1 (by decide)⟩⟩

/-- C4: for a model constructed with `probabilistic = False`, the result of
`decode_from_latent` is independent of its `logvars` argument: the logvar feed
slot is zero-filled regardless of the supplied logvars, so two calls with the
same means, decoder inputs and target weights but different logvars build
identical input feeds, and — with the execution engine modelled from the spec
as a deterministic `evaluate(outputs, feeds)` function (no sampling noise on
the non-probabilistic path) — produce identical per-position outputs on
repeated calls. -/
theorem decode_from_latent_logvar_independent
    (run : List Fetch → List (Slot × FeedVal) → List (List Rat))
    (cfg : ModelCfg) (h : cfg.probabilistic = false)
    (means lv1 lv2 : List (List Rat)) (bucketId : Nat)
    (dec : List (List Int)) (w : List (List Rat)) :
    decode_from_latent cfg means lv1 bucketId dec w =
        decode_from_latent cfg means lv2 bucketId dec w ∧
    decodeOutputs run cfg means lv1 bucketId dec w =
        decodeOutputs run cfg means lv2 bucketId dec w := by
  have hfeed : decode_from_latent cfg means lv1 bucketId dec w =
      decode_from_latent cfg means lv2 bucketId dec w := by
    simp [decode_from_latent, h]
  exact ⟨hfeed, by simp [decodeOutputs, hfeed]⟩

/-- C4 witness: the non-probabilistic one-bucket model, logvars `[[0]]`
vs `[[1]]`: identical feeds and identical outputs. -/
theorem decode_from_latent_logvar_independent_witness :
    cfgOne.probabilistic = false ∧
    (decode_from_latent cfgOne [[0]] [[0]] 0 [[1], [5]] [[1], [0]] =
        decode_from_latent cfgOne [[0]] [[1]] 0 [[1], [5]] [[1], [0]] ∧
      decodeOutputs (fun _ _ => []) cfgOne [[0]] [[0]] 0 [[1], [5]] [[1], [0]] =
        decodeOutputs (fun _ _ => []) cfgOne [[0]] [[1]] 0 [[1], [5]] [[1], [0]]) :=
  ⟨rfl,
   decode_from_latent_logvar_independent (fun _ _ => []) cfgOne rfl
     [[0]] [[0]] [[1]] 0 [[1], [5]] [[1], [0]]⟩

theorem except_bind_ok (a : α) (f : α → Except ε β) :
    (Except.ok a >>= f : Except ε β) = f a := rfl

theorem except_bind_err (e : ε) (f : α → Except ε β) :
    (Except.error e >>= f : Except ε β) = Except.error e := rfl

theorem except_pure (a : α) : (pure a : Except ε α) = Except.ok a := rfl

theorem except_map_ok (f : α → β) (a : α) :
    (f <$> Except.ok a : Except ε β) = Except.ok (f a) := rfl

theorem except_map_err (f : α → β) (e : ε) :
    (f <$> Except.error e : Except ε β) = Except.error e := rfl

theorem decodeFeedStep_loop_ok (dec : List (List Int)) (w : List (List Rat)) :
    ∀ ds : Nat, ds ≤ dec.length → ds ≤ w.length →
      ∀ acc : List (Slot × FeedVal),
        ∃ r, (List.range ds).foldlM (decodeFeedStep dec w) acc = Except.ok r := by
  intro ds
  induction ds with
  | zero => intro _ _ acc; exact ⟨acc, rfl⟩
  | succ n ih =>
    intro hd hw acc
    rw [List.range_succ, List.foldlM_append]
    obtain ⟨r, hr⟩ := ih (by omega) (by omega) acc
    rw [hr]
    have hd' : n < dec.length := by omega
    have hw' : n < w.length := by omega
    refine ⟨r ++ [(Slot.decoderSlot n, FeedVal.intVec dec[n]),
                  (Slot.weightSlot n, FeedVal.ratVec w[n])], ?_⟩
    simp only [decodeFeedStep, pyGet, List.getElem?_eq_getElem hd',
      List.getElem?_eq_getElem hw', List.foldlM_cons, List.foldlM_nil,
      except_bind_ok, except_pure]

theorem decodeFeedStep_loop_err (dec : List (List Int)) (w : List (List Rat)) :
    ∀ ds : Nat, dec.length < ds ∨ w.length < ds →
      ∀ acc : List (Slot × FeedVal),
        (List.range ds).foldlM (decodeFeedStep dec w) acc =
          Except.error ModelError.indexError := by
  intro ds
  induction ds with
  | zero => intro h acc; exact absurd h (by omega)
  | succ n ih =>
    intro h acc
    rw [List.range_succ, List.foldlM_append]
    by_cases h' : dec.length < n ∨ w.length < n
    · rw [ih h' acc]
      rfl
    · obtain ⟨r, hr⟩ := decodeFeedStep_loop_ok dec w n (by omega) (by omega) acc
      rw [hr]
      rcases (by omega : dec.length = n ∨ (n < dec.length ∧ w.length = n)) with
        hA | ⟨hB1, hB2⟩
      · simp only [decodeFeedStep, pyGet,
          List.getElem?_eq_none (by omega : dec.length ≤ n),
          List.foldlM_cons, List.foldlM_nil, except_bind_ok, except_bind_err,
          except_pure]
      · simp only [decodeFeedStep, pyGet, List.getElem?_eq_getElem hB1,
          List.getElem?_eq_none (by omega : w.length ≤ n),
          List.foldlM_cons, List.foldlM_nil, except_bind_ok, except_bind_err,
          except_pure]

/-- C9 counterexample: for the one-bucket model with output length 2,
`decode_from_latent` called with `decoder_inputs` and `target_weights` of
length 3 does NOT fail: no shape-mismatch error is raised before evaluation —
the call succeeds and silently uses only the first 2 entries. -/
theorem decode_from_latent_no_shape_check_cex :
    (decode_from_latent cfgOne [[0]] [[0]] 0
        [[1], [5], [9]] [[1], [0], [1]]).isOk = true := by decide

/-- C9 corrected: `decode_from_latent` performs no shape validation at all:
when both `decoder_inputs` and `target_weights` have at least the bucket's
output length, the call succeeds (surplus entries are silently ignored), and
when either is shorter, the elementwise feed-building read fails with a bare
index error that names no expected/actual lengths; a shape-mismatch error
naming the lengths is never produced (the two cases are exhaustive). -/
theorem decode_from_latent_no_validation (cfg : ModelCfg)
    (means logvars : List (List Rat)) (bid : Nat)
    (dec : List (List Int)) (w : List (List Rat)) :
    ((cfg.buckets.getD bid ⟨0, 0⟩).decSize ≤ dec.length ∧
        (cfg.buckets.getD bid ⟨0, 0⟩).decSize ≤ w.length →
      (decode_from_latent cfg means logvars bid dec w).isOk = true) ∧
    (dec.length < (cfg.buckets.getD bid ⟨0, 0⟩).decSize ∨
        w.length < (cfg.buckets.getD bid ⟨0, 0⟩).decSize →
      decode_from_latent cfg means logvars bid dec w =
        Except.error ModelError.indexError) := by
  constructor
  · rintro ⟨hd, hw⟩
    obtain ⟨r, hr⟩ := decodeFeedStep_loop_ok dec w _ hd hw
      [(Slot.meanSlot bid, FeedVal.ratMat means),
       (Slot.logvarSlot bid,
        if cfg.probabilistic = false then
          FeedVal.zerosInt2 cfg.batchSize cfg.latentDim
        else FeedVal.ratMat logvars)]
    simp only [List.getD_eq_getElem?_getD] at hr
    simp [decode_from_latent, hr, except_bind_ok, except_map_ok, except_pure,
      Except.isOk, Except.toBool]
  · intro h
    have hr := decodeFeedStep_loop_err dec w _ h
      [(Slot.meanSlot bid, FeedVal.ratMat means),
       (Slot.logvarSlot bid,
        if cfg.probabilistic = false then
          FeedVal.zerosInt2 cfg.batchSize cfg.latentDim
        else FeedVal.ratMat logvars)]
    simp only [List.getD_eq_getElem?_getD] at hr
    simp [decode_from_latent, hr, except_bind_err, except_map_err]

/-- C9 corrected witness: with output length 2, inputs of length 3 succeed,
and inputs of length 1 yield the bare index error. -/
theorem decode_from_latent_no_validation_witness :
    ((cfgOne.buckets.getD 0 ⟨0, 0⟩).decSize ≤ ([[1], [5], [9]] : List (List Int)).length ∧
        (cfgOne.buckets.getD 0 ⟨0, 0⟩).decSize ≤ ([[1], [0], [1]] : List (List Rat)).length ∧
      (decode_from_latent cfgOne [[0]] [[0]] 0 [[1], [5], [9]] [[1], [0], [1]]).isOk = true) ∧
    (([[1]] : List (List Int)).length < (cfgOne.buckets.getD 0 ⟨0, 0⟩).decSize ∧
      decode_from_latent cfgOne [[0]] [[0]] 0 [[1]] [[1]] =
        Except.error ModelError.indexError) :=
  ⟨⟨by decide, by decide,
    (decode_from_latent_no_validation cfgOne [[0]] [[0]] 0
        [[1], [5], [9]] [[1], [0], [1]]).1 ⟨by decide, by decide⟩⟩,
   ⟨by decide,
    (decode_from_latent_no_validation cfgOne [[0]] [[0]] 0 [[1]] [[1]]).2
      (Or.inl (by decide))⟩⟩

theorem foldl_append_eq_map (g : Nat → α) (L : List Nat) :
    ∀ acc : List α, L.foldl (fun acc b => acc ++ [g b]) acc = acc ++ L.map g := by
  induction L with
  | nil => intro acc; simp
  | cons x xs ih => intro acc; simp [ih]

/-- C6: at model construction, for every bucket, the loss whose gradients are
computed, clipped to the maximum global norm, and applied is
`reconstruction_loss + kl_rate * divergence` when probabilistic and annealing,
`reconstruction_loss + divergence` when probabilistic without annealing, and
`reconstruction_loss` alone when non-probabilistic; and in forward-only mode no
gradient, clipping, or update expressions are built at all. -/
theorem buildTrainingOps_spec (p a : Bool) (mg : Rat) (n b : Nat) (hb : b < n) :
    buildTrainingOps p a true mg n = [] ∧
    (p = true → a = true →
      (buildTrainingOps p a false mg n)[b]? =
        some ⟨LExpr.add (LExpr.reconLoss b)
          (LExpr.mul LExpr.klRate (LExpr.klDiv b)), mg⟩) ∧
    (p = true → a = false →
      (buildTrainingOps p a false mg n)[b]? =
        some ⟨LExpr.add (LExpr.reconLoss b) (LExpr.klDiv b), mg⟩) ∧
    (p = false →
      (buildTrainingOps p a false mg n)[b]? =
        some ⟨LExpr.reconLoss b, mg⟩) := by
  refine ⟨by simp [buildTrainingOps], ?_, ?_, ?_⟩
  · rintro rfl rfl
    simp [buildTrainingOps, foldl_append_eq_map, List.getElem?_range hb]
  · rintro rfl rfl
    simp [buildTrainingOps, foldl_append_eq_map, List.getElem?_range hb]
  · rintro rfl
    simp [buildTrainingOps, foldl_append_eq_map, List.getElem?_range hb]

/-- C6 witness: two buckets, probabilistic with annealing — bucket 1's update
differentiates `reconstruction_loss + kl_rate * divergence` clipped to norm 5;
forward-only builds nothing. -/
theorem buildTrainingOps_spec_witness :
    (1 : Nat) < 2 ∧
    buildTrainingOps true true true 5 2 = [] ∧
    (buildTrainingOps true true false 5 2)[1]? =
      some ⟨LExpr.add (LExpr.reconLoss 1)
        (LExpr.mul LExpr.klRate (LExpr.klDiv 1)), 5⟩ :=
  ⟨by decide, (buildTrainingOps_spec true true 5 2 1 (by decide)).1,
   (buildTrainingOps_spec true true 5 2 1 (by decide)).2.1 rfl rfl⟩

/-- C8: when the model is constructed with a sampled-softmax sample count at
least the target vocabulary size, or not positive, construction raises no
error (the guard is a plain `if`): no output-projection pair and no sampled
loss function are created, so the model degrades to the full-vocabulary
softmax loss (`softmax_loss_function = None` selects the default downstream). -/
theorem buildSampledSoftmax_disabled (numSamples : Int) (vocab hid : Nat)
    (h : (vocab : Int) ≤ numSamples ∨ numSamples ≤ 0) :
    buildSampledSoftmax numSamples vocab hid = (none, none) := by
  unfold buildSampledSoftmax
  rw [if_neg (by omega)]

/-- C8 witness: 512 samples with a vocabulary of 100 (count ≥ vocab) —
sampling silently disabled. -/
theorem buildSampledSoftmax_disabled_witness :
    ((100 : Int) ≤ 512 ∨ (512 : Int) ≤ 0) ∧
    buildSampledSoftmax 512 100 64 = (none, none) :=
  ⟨Or.inl (by decide), buildSampledSoftmax_disabled 512 100 64 (Or.inl (by decide))⟩

end Seq2SeqModel
